import Mathlib

/-!
Shallow embedding of the operational scripts of the repository:

* `scripts/register_parachain.py` — the file-readiness waiter `wait_for_file`,
  modelled as a bounded polling loop over a time-indexed view of the file
  system (one `FileState` per performed check).
* `scripts/update_hardcoded_chain_specs.py` — the chain-spec migrator (encointer
  revision, flag `--migrate-genesis`).
* `scripts/update_hardcoded_specs.py` — the chain-spec migrator
  (integritee revision, flag `--regenesis`, with a branch for a missing
  previous spec file).

JSON documents are modelled by the inductive `Json`; Python `dict`
subscription and assignment become `getKey` / `setKey` on insertion-ordered
association lists, matching CPython's ordered-dict semantics.  The file system
is an association list from path strings to `Content`, where a `Content` is
either a well-formed JSON document or unparseable raw bytes; replacing the
`Content` at a path models `seek(0)` + `json.dump` + `truncate()`.  Raised
Python exceptions become `Except` errors carrying the message and the file
system at the moment of the raise.
-/

/-- JSON values, as produced by `json.load`. -/
inductive Json where
  | null : Json
  | bool : Bool → Json
  | num : Int → Json
  | str : String → Json
  | arr : List Json → Json
  | obj : List (String × Json) → Json

/-- Python `d[key]` on a dict represented as an insertion-ordered
association list: the first binding of `key`, or `none` (KeyError). -/
def getKey : List (String × Json) → String → Option Json
  | [], _ => none
  | (k, v) :: rest, key => if k = key then some v else getKey rest key

/-- Python `d[key] = val` on a dict represented as an insertion-ordered
association list: overwrite in place if the key is present (keeping its
position, as CPython does), otherwise append it at the end. -/
def setKey : List (String × Json) → String → Json → List (String × Json)
  | [], key, val => [(key, val)]
  | (k, v) :: rest, key, val =>
    if k = key then (k, val) :: rest else (k, v) :: setKey rest key val

/-- Top-level field access on a JSON document: `none` on a non-object or a
missing key. -/
def Json.get : Json → String → Option Json
  | Json.obj kvs, key => getKey kvs key
  | _, _ => none

/-- Content of a file on disk: either bytes that parse as the given JSON
document, or raw bytes that `json.load` rejects.  `Content` equality models
byte identity (two equal contents are bytewise equal in any refinement). -/
inductive Content where
  | json : Json → Content
  | raw : String → Content

/-- Python `json.load` on a file with the given content. -/
def parseContent : Content → Except String Json
  | Content.json j => Except.ok j
  | Content.raw s => Except.error ("JSONDecodeError: " ++ s)

/-- File system: association list from path to content; `none` lookup means
the path does not exist. -/
abbrev FS := List (String × Content)

/-- Content stored at a path, if the path exists. -/
def lookup : FS → String → Option Content
  | [], _ => none
  | (k, v) :: rest, p => if k = p then some v else lookup rest p

/-- Create the file at `p` with content `c`, or overwrite it in place. -/
def setFile : FS → String → Content → FS
  | [], p, c => [(p, c)]
  | (k, v) :: rest, p, c =>
    if k = p then (k, c) :: rest else (k, v) :: setFile rest p c

/-- Python `os.remove` effect on the file system map. -/
def removeFile : FS → String → FS
  | [], _ => []
  | (k, v) :: rest, p =>
    if k = p then removeFile rest p else (k, v) :: removeFile rest p

/-- The sequence of `os.remove(...)` calls at the end of a migration step:
each call raises `FileNotFoundError` (propagated with the file system at the
raise) when its path does not exist. -/
def removeFiles : FS → List String → Except (String × FS) FS
  | fs, [] => Except.ok fs
  | fs, p :: ps =>
    if (lookup fs p).isSome then removeFiles (removeFile fs p) ps
    else Except.error ("FileNotFoundError: " ++ p, fs)

/-- Modelled from the spec: the external `scripts/dump_wasm_state_and_spec.sh`
invocation (not under `src/`) "producing a set of fresh artifact files
(`<id>-fresh.json`, `<id>-fresh-raw.json`, `-raw-unsorted.json`, `.state`,
`.wasm`) from a compiled collator binary".  A `GenOutput` is the set of
contents it writes for one chain identifier; the oracle `String → GenOutput`
supplies them per identifier. -/
structure GenOutput where
  freshSpec : Content
  freshRawSpec : Content
  freshRawUnsorted : Content
  freshState : Content
  freshWasm : Content

/-- The five artifact paths derived from a base path `<res_dir>/<id>-fresh`,
in the order the migrators remove them. -/
def artifactPaths (base : String) : List String :=
  [base ++ ".json", base ++ "-raw.json", base ++ "-raw-unsorted.json",
   base ++ ".state", base ++ ".wasm"]

/-- Modelled from the spec: effect of one `dump_wasm_state_and_spec.sh` run
on the file system — write the five fresh artifact files under the given
base path with the contents `g`. -/
def dumpArtifacts (base : String) (g : GenOutput) (fs : FS) : FS :=
  setFile (setFile (setFile (setFile (setFile fs
    (base ++ ".json") g.freshSpec)
    (base ++ "-raw.json") g.freshRawSpec)
    (base ++ "-raw-unsorted.json") g.freshRawUnsorted)
    (base ++ ".state") g.freshState)
    (base ++ ".wasm") g.freshWasm

namespace RegisterParachain

/-- Snapshot of what `Path(path)` answers at one check of the polling loop:
`present` is `p.exists()`, `is_file` is `p.is_file()`, `st_size` is
`p.stat().st_size`. -/
structure FileState where
  present : Bool
  is_file : Bool
  st_size : Nat

/-- Outcome of `wait_for_file`: normal return, or one of its two raised
exceptions, carrying the exception message. -/
inductive WaitResult where
  | success : WaitResult
  | notNormalFile : String → WaitResult
  | timeout : String → WaitResult
deriving DecidableEq

/-- Result of a run of `wait_for_file` together with the number of
performed checks (loop iterations that queried the path) and the number of
performed `sleep(delay)` calls. -/
structure WaitOutcome where
  result : WaitResult
  checks : Nat
  sleeps : Nat
deriving DecidableEq

/-- Loop body of `wait_for_file`: `i` is the index of the next check into the
time-indexed environment `env`, the final `Nat` is the number of remaining
attempts of `range(tries)`.  On each attempt: if the path exists and is not a
regular file, raise; if it exists, is a regular file and is non-empty,
return; otherwise `sleep(delay)` and retry.  When attempts run out, raise the
timeout exception reporting `delay * tries` seconds. -/
def waitLoop (env : Nat → FileState) (path : String) (tries delay : Nat) :
    Nat → Nat → WaitOutcome
  | _, 0 =>
    ⟨WaitResult.timeout
      (path ++ " was not ready after " ++ toString (delay * tries) ++ " seconds"), 0, 0⟩
  | i, r + 1 =>
    let st := env i
    if st.present then
      if st.is_file = false then
        ⟨WaitResult.notNormalFile (path ++ " was not a normal file"), 1, 0⟩
      else if st.st_size > 0 then
        ⟨WaitResult.success, 1, 0⟩
      else
        let o := waitLoop env path tries delay (i + 1) r
        ⟨o.result, o.checks + 1, o.sleeps + 1⟩
    else
      let o := waitLoop env path tries delay (i + 1) r
      ⟨o.result, o.checks + 1, o.sleeps + 1⟩

/-- The function `wait_for_file(path, tries, delay)` of
`scripts/register_parachain.py` (defaults `tries=10`, `delay=1`), run against
the environment `env` giving the state of `path` at each successive check. -/
def wait_for_file (path : String) (env : Nat → FileState) (tries delay : Nat) :
    WaitOutcome :=
  waitLoop env path tries delay 0 tries

/-- State in which the check `p.exists() and p.is_file() and
p.stat().st_size > 0` succeeds. -/
def goodState (st : FileState) : Prop :=
  st.present = true ∧ st.is_file = true ∧ 0 < st.st_size

/-- State in which the loop raises "was not a normal file": the path exists
but is not a regular file. -/
def badTypeState (st : FileState) : Prop :=
  st.present = true ∧ st.is_file = false

end RegisterParachain

namespace UpdateHardcodedChainSpecs

/-- Chain identifiers of `scripts/update_hardcoded_chain_specs.py` (the `chain_id`
entries of its `SPECS` list of dicts). -/
def SPECS : List String :=
  ["encointer-kusama", "encointer-rococo", "encointer-westend",
   "launch-kusama", "launch-rococo", "launch-westend"]

def COLLATOR : String := "target/release/encointer-collator"

def RES_DIR : String := "polkadot-parachains/res"

/-- The f-string `f'{RES_DIR}/{chain_spec}.json'`. -/
def origFile (chain_spec : String) : String :=
  RES_DIR ++ "/" ++ chain_spec ++ ".json"

/-- The f-string `f'{RES_DIR}/{chain_spec}-fresh'`. -/
def newFileBase (chain_spec : String) : String :=
  RES_DIR ++ "/" ++ chain_spec ++ "-fresh"

/-- The five side-product paths removed at the end of a migration step, in
removal order. -/
def sideProducts (chain_spec : String) : List String :=
  artifactPaths (newFileBase chain_spec)

/-- Effect of `subprocess.call('scripts/dump_wasm_state_and_spec.sh ...')`
on the file system: write the five fresh artifact files (the exit status is
printed and otherwise ignored by `main`). -/
def runGenerator (gen : String → GenOutput) (chain_spec : String) (fs : FS) : FS :=
  dumpArtifacts (newFileBase chain_spec) (gen chain_spec) fs

/-- Field migration of `main`:
`new_json["bootNodes"] = orig_json["bootNodes"]`, then
`if migrate_genesis: new_json["genesis"] = orig_json["genesis"]`.
Returns `none` when Python would raise (TypeError on a non-dict document,
KeyError on a missing key). -/
def mergeStep (migrate_genesis : Bool) (orig_json new_json : Json) : Option Json :=
  match orig_json, new_json with
  | Json.obj o, Json.obj f =>
    match getKey o "bootNodes" with
    | none => none
    | some bn =>
      let f1 := setKey f "bootNodes" bn
      if migrate_genesis then
        match getKey o "genesis" with
        | none => none
        | some g => some (Json.obj (setKey f1 "genesis" g))
      else some (Json.obj f1)
  | _, _ => none

/-- The two nested `with open(...)` blocks of `main`: open and parse the
original spec (`FileNotFoundError` if absent, since `open(..., 'r+')` requires
an existing file), open and parse the fresh raw spec, merge, then write the
merged document back over the original path (`seek(0)`, `json.dump`,
`truncate()`).  Errors carry the file system at the raise; no file has been
written yet at any raise point of this phase. -/
def mergeFiles (migrate_genesis : Bool) (chain_spec : String) (fs1 : FS) :
    Except (String × FS) FS :=
  match lookup fs1 (origFile chain_spec) with
  | none => Except.error ("FileNotFoundError: " ++ origFile chain_spec, fs1)
  | some origContent =>
    match parseContent origContent with
    | Except.error e => Except.error (e, fs1)
    | Except.ok orig_json =>
      match lookup fs1 (newFileBase chain_spec ++ "-raw.json") with
      | none =>
        Except.error ("FileNotFoundError: " ++ newFileBase chain_spec ++ "-raw.json", fs1)
      | some rawContent =>
        match parseContent rawContent with
        | Except.error e => Except.error (e, fs1)
        | Except.ok new_json =>
          match mergeStep migrate_genesis orig_json new_json with
          | none => Except.error ("KeyError", fs1)
          | some merged =>
            Except.ok (setFile fs1 (origFile chain_spec) (Content.json merged))

/-- One iteration of the `for s in SPECS` loop of `main`: run the generator,
merge the previous values into the fresh raw spec over the original path,
then remove the five side products. -/
def processChain (migrate_genesis : Bool) (gen : String → GenOutput)
    (chain_spec : String) (fs : FS) : Except (String × FS) FS :=
  let fs1 := runGenerator gen chain_spec fs
  match mergeFiles migrate_genesis chain_spec fs1 with
  | Except.error e => Except.error e
  | Except.ok fs2 => removeFiles fs2 (sideProducts chain_spec)

/-- The `for` loop of `main` over an explicit list of chain identifiers: the
identifiers are processed one at a time in listed order, and the first raised
exception aborts the whole run, propagating the message and the file system
at the raise. -/
def runMigration (migrate_genesis : Bool) (gen : String → GenOutput) :
    List String → FS → Except (String × FS) FS
  | [], fs => Except.ok fs
  | c :: cs, fs =>
    match processChain migrate_genesis gen c fs with
    | Except.error e => Except.error e
    | Except.ok fs2 => runMigration migrate_genesis gen cs fs2

/-- The function `main(migrate_genesis)` of `scripts/update_hardcoded_chain_specs.py`. -/
def main (migrate_genesis : Bool) (gen : String → GenOutput) (fs : FS) :
    Except (String × FS) FS :=
  runMigration migrate_genesis gen SPECS fs

end UpdateHardcodedChainSpecs

namespace UpdateHardcodedSpecs

/-- The `SPECS` list of `scripts/update_hardcoded_specs.py`. -/
def SPECS : List String :=
  ["integritee-rococo", "integritee-westend", "integritee-kusama",
   "integritee-polkadot", "integritee-moonbase", "shell-kusama"]

def COLLATOR : String := "target/release/integritee-collator"

def RES_DIR : String := "polkadot-parachains/chain-specs"

/-- The f-string `f'{RES_DIR}/{chain_spec}.json'`. -/
def origFile (chain_spec : String) : String :=
  RES_DIR ++ "/" ++ chain_spec ++ ".json"

/-- The f-string `f'{RES_DIR}/{chain_spec}-fresh'`. -/
def newFileBase (chain_spec : String) : String :=
  RES_DIR ++ "/" ++ chain_spec ++ "-fresh"

/-- The five side-product paths removed at the end of the merge branch, in
removal order. -/
def sideProducts (chain_spec : String) : List String :=
  artifactPaths (newFileBase chain_spec)

/-- Effect of `subprocess.call('scripts/dump_wasm_state_and_spec.sh ...')`
on the file system: write the five fresh artifact files (the exit status is
printed and otherwise ignored by `main`). -/
def runGenerator (gen : String → GenOutput) (chain_spec : String) (fs : FS) : FS :=
  dumpArtifacts (newFileBase chain_spec) (gen chain_spec) fs

/-- Field migration of `main`:
`new_json["bootNodes"] = orig_json["bootNodes"]`, then
`if not regenesis: new_json["genesis"] = orig_json["genesis"]`.
Returns `none` when Python would raise (TypeError on a non-dict document,
KeyError on a missing key).  The genesis condition is the negation of the one
in `UpdateHardcodedChainSpecs.mergeStep`. -/
def mergeStep (regenesis : Bool) (orig_json new_json : Json) : Option Json :=
  match orig_json, new_json with
  | Json.obj o, Json.obj f =>
    match getKey o "bootNodes" with
    | none => none
    | some bn =>
      let f1 := setKey f "bootNodes" bn
      if regenesis = false then
        match getKey o "genesis" with
        | none => none
        | some g => some (Json.obj (setKey f1 "genesis" g))
      else some (Json.obj f1)
  | _, _ => none

/-- The two nested `with open(...)` blocks of the `else` branch of `main`:
parse both documents, merge, and write the merged document back over the
original path (`seek(0)`, `json.dump`, `truncate()`). -/
def mergeFiles (regenesis : Bool) (chain_spec : String) (fs1 : FS) :
    Except (String × FS) FS :=
  match lookup fs1 (origFile chain_spec) with
  | none => Except.error ("FileNotFoundError: " ++ origFile chain_spec, fs1)
  | some origContent =>
    match parseContent origContent with
    | Except.error e => Except.error (e, fs1)
    | Except.ok orig_json =>
      match lookup fs1 (newFileBase chain_spec ++ "-raw.json") with
      | none =>
        Except.error ("FileNotFoundError: " ++ newFileBase chain_spec ++ "-raw.json", fs1)
      | some rawContent =>
        match parseContent rawContent with
        | Except.error e => Except.error (e, fs1)
        | Except.ok new_json =>
          match mergeStep regenesis orig_json new_json with
          | none => Except.error ("KeyError", fs1)
          | some merged =>
            Except.ok (setFile fs1 (origFile chain_spec) (Content.json merged))

/-- One iteration of the `for chain_spec in SPECS` loop of `main`: run the
generator, then either the `if not os.path.exists(orig_file)` branch — copy
the fresh raw spec to the original path via `os.popen(f"cp ...")`, a shell
command whose failure is not reported, so a missing source is a silent no-op,
and remove nothing — or the `else` branch: merge and remove the five side
products. -/
def processChain (regenesis : Bool) (gen : String → GenOutput)
    (chain_spec : String) (fs : FS) : Except (String × FS) FS :=
  let fs1 := runGenerator gen chain_spec fs
  if (lookup fs1 (origFile chain_spec)).isNone then
    match lookup fs1 (newFileBase chain_spec ++ "-raw.json") with
    | some c => Except.ok (setFile fs1 (origFile chain_spec) c)
    | none => Except.ok fs1
  else
    match mergeFiles regenesis chain_spec fs1 with
    | Except.error e => Except.error e
    | Except.ok fs2 => removeFiles fs2 (sideProducts chain_spec)

/-- The `for` loop of `main` over an explicit list of chain identifiers. -/
def runMigration (regenesis : Bool) (gen : String → GenOutput) :
    List String → FS → Except (String × FS) FS
  | [], fs => Except.ok fs
  | c :: cs, fs =>
    match processChain regenesis gen c fs with
    | Except.error e => Except.error e
    | Except.ok fs2 => runMigration regenesis gen cs fs2

/-- The function `main(regenesis)` of `scripts/update_hardcoded_specs.py`. -/
def main (regenesis : Bool) (gen : String → GenOutput) (fs : FS) :
    Except (String × FS) FS :=
  runMigration regenesis gen SPECS fs

end UpdateHardcodedSpecs

/-!
Concrete data used by the witnesses: the worked example of the spec
(previous spec with bootNodes `["a","b"]` and genesis `{"x":1}`, fresh raw
spec with empty bootNodes and genesis `{"x":2}`), a generator oracle, small
file systems, and time-indexed file-state environments for the waiter.
-/

/-- Bindings of the previous spec document of the worked example. -/
def prevList : List (String × Json) :=
  [("bootNodes", Json.arr [Json.str "a", Json.str "b"]),
   ("genesis", Json.obj [("x", Json.num 1)])]

/-- Bindings of the fresh raw spec document of the worked example. -/
def freshList : List (String × Json) :=
  [("bootNodes", Json.arr []), ("genesis", Json.obj [("x", Json.num 2)])]

/-- Previous spec document of the worked example. -/
def prevDoc : Json := Json.obj prevList

/-- Fresh raw spec document of the worked example. -/
def freshDoc : Json := Json.obj freshList

/-- Expected merge result when the previous genesis is preserved. -/
def mergedKeepGenesis : Json :=
  Json.obj [("bootNodes", Json.arr [Json.str "a", Json.str "b"]),
            ("genesis", Json.obj [("x", Json.num 1)])]

/-- Expected merge result when the fresh genesis is kept. -/
def mergedNewGenesis : Json :=
  Json.obj [("bootNodes", Json.arr [Json.str "a", Json.str "b"]),
            ("genesis", Json.obj [("x", Json.num 2)])]

/-- Generator oracle used by the witnesses: every chain identifier gets the
fresh raw spec `freshDoc` and opaque bytes for the other four artifacts. -/
def genW : String → GenOutput := fun _ =>
  ⟨Content.raw "fresh-spec", Content.json freshDoc, Content.raw "unsorted",
   Content.raw "state-dump", Content.raw "wasm-blob"⟩

/-- Initial file system of the abort-semantics witness: only chain `a` has a
previous spec file (in the encointer layout). -/
def fs0W : FS := [(UpdateHardcodedChainSpecs.origFile "a", Content.json prevDoc)]

/-- File system after `update_hardcoded_specs.py` processes the chain
identifier `integritee-rococo` with no previous spec file: the five fresh
artifacts written by the generator are still on disk, plus the copied
original spec. -/
def c8FsAfter : FS :=
  [("polkadot-parachains/chain-specs/integritee-rococo-fresh.json", Content.raw "fresh-spec"),
   ("polkadot-parachains/chain-specs/integritee-rococo-fresh-raw.json", Content.json freshDoc),
   ("polkadot-parachains/chain-specs/integritee-rococo-fresh-raw-unsorted.json", Content.raw "unsorted"),
   ("polkadot-parachains/chain-specs/integritee-rococo-fresh.state", Content.raw "state-dump"),
   ("polkadot-parachains/chain-specs/integritee-rococo-fresh.wasm", Content.raw "wasm-blob"),
   ("polkadot-parachains/chain-specs/integritee-rococo.json", Content.json freshDoc)]

/-- File system at the raise of the abort-semantics witness: chain `a` fully
migrated (genesis preserved, side files removed), chain `b`'s five fresh
artifacts written by the generator but its missing previous spec about to
abort the run. -/
def c9ErrFs : FS :=
  [("polkadot-parachains/res/a.json", Content.json mergedKeepGenesis),
   ("polkadot-parachains/res/b-fresh.json", Content.raw "fresh-spec"),
   ("polkadot-parachains/res/b-fresh-raw.json", Content.json freshDoc),
   ("polkadot-parachains/res/b-fresh-raw-unsorted.json", Content.raw "unsorted"),
   ("polkadot-parachains/res/b-fresh.state", Content.raw "state-dump"),
   ("polkadot-parachains/res/b-fresh.wasm", Content.raw "wasm-blob")]

/-- Environment where the path appears as a non-empty regular file at the
second check (index 1) and is absent before. -/
def readyAtOneEnv : Nat → RegisterParachain.FileState := fun i =>
  if i = 1 then ⟨true, true, 5⟩ else ⟨false, false, 0⟩

/-- Environment where the path never exists. -/
def neverEnv : Nat → RegisterParachain.FileState := fun _ => ⟨false, false, 0⟩

/-- Environment where the path is a directory (exists, not a regular file)
at every check. -/
def dirEnv : Nat → RegisterParachain.FileState := fun _ => ⟨true, false, 0⟩

/-!
Helper lemmas: strings, the file-system map, and ordered-dict operations.
-/

theorem strDataAppend (s t : String) : (s ++ t).data = s.data ++ t.data := rfl

theorem strSplitInj (pre : String) (s t : String) (h : pre ++ s = pre ++ t) : s = t := by
  have hd := congrArg String.data h
  rw [strDataAppend, strDataAppend] at hd
  have h2 := List.append_cancel_left hd
  cases s; cases t; exact congrArg String.mk h2

theorem strSplitNe (pre : String) (s t : String) (h : s ≠ t) : pre ++ s ≠ pre ++ t :=
  fun heq => h (strSplitInj pre s t heq)

theorem strAssoc (a b c : String) : (a ++ b) ++ c = a ++ (b ++ c) := by
  cases a; cases b; cases c
  exact congrArg String.mk (List.append_assoc _ _ _)

theorem lookup_setFile_self (fs : FS) (p : String) (c : Content) :
    lookup (setFile fs p c) p = some c := by
  induction fs with
  | nil => simp [setFile, lookup]
  | cons kv rest ih =>
    obtain ⟨k, v⟩ := kv
    by_cases h : k = p
    · simp [setFile, lookup, h]
    · simp [setFile, lookup, h, ih]

theorem lookup_setFile_ne (fs : FS) (p q : String) (c : Content) (h : p ≠ q) :
    lookup (setFile fs p c) q = lookup fs q := by
  induction fs with
  | nil =>
    simp only [setFile, lookup]
    rw [if_neg h]
  | cons kv rest ih =>
    obtain ⟨k, v⟩ := kv
    simp only [setFile]
    by_cases h1 : k = p
    · have hkq : ¬ k = q := fun hq => h (h1.symm.trans hq)
      rw [if_pos h1]
      simp only [lookup]
      rw [if_neg hkq, if_neg hkq]
    · rw [if_neg h1]
      simp only [lookup]
      by_cases h2 : k = q
      · rw [if_pos h2, if_pos h2]
      · rw [if_neg h2, if_neg h2, ih]

theorem lookup_removeFile_self (fs : FS) (p : String) :
    lookup (removeFile fs p) p = none := by
  induction fs with
  | nil => simp [removeFile, lookup]
  | cons kv rest ih =>
    obtain ⟨k, v⟩ := kv
    simp only [removeFile]
    by_cases h : k = p
    · rw [if_pos h]
      exact ih
    · rw [if_neg h]
      simp only [lookup]
      rw [if_neg h]
      exact ih

theorem lookup_removeFile_ne (fs : FS) (p q : String) (h : p ≠ q) :
    lookup (removeFile fs p) q = lookup fs q := by
  induction fs with
  | nil => simp [removeFile]
  | cons kv rest ih =>
    obtain ⟨k, v⟩ := kv
    simp only [removeFile]
    by_cases h1 : k = p
    · have hkq : ¬ k = q := fun hq => h (h1.symm.trans hq)
      rw [if_pos h1, ih]
      simp only [lookup]
      rw [if_neg hkq]
    · rw [if_neg h1]
      simp only [lookup]
      by_cases h2 : k = q
      · rw [if_pos h2, if_pos h2]
      · rw [if_neg h2, if_neg h2, ih]

theorem getKey_setKey_self (l : List (String × Json)) (k : String) (v : Json) :
    getKey (setKey l k v) k = some v := by
  induction l with
  | nil => simp [setKey, getKey]
  | cons kv rest ih =>
    obtain ⟨k1, v1⟩ := kv
    simp only [setKey]
    by_cases h : k1 = k
    · rw [if_pos h]
      simp only [getKey]
      rw [if_pos h]
    · rw [if_neg h]
      simp only [getKey]
      rw [if_neg h]
      exact ih

theorem getKey_setKey_ne (l : List (String × Json)) (k key : String) (v : Json)
    (h : key ≠ k) : getKey (setKey l k v) key = getKey l key := by
  induction l with
  | nil =>
    simp only [setKey, getKey]
    rw [if_neg (fun hq : k = key => h hq.symm)]
  | cons kv rest ih =>
    obtain ⟨k1, v1⟩ := kv
    simp only [setKey]
    by_cases h1 : k1 = k
    · have hkq : ¬ k1 = key := fun hq => h (hq.symm.trans h1)
      rw [if_pos h1]
      simp only [getKey]
      rw [if_neg hkq, if_neg hkq]
    · rw [if_neg h1]
      simp only [getKey]
      by_cases h2 : k1 = key
      · rw [if_pos h2, if_pos h2]
      · rw [if_neg h2, if_neg h2, ih]

theorem removeFiles_ok (ps : List String) (fs : FS) (hnd : ps.Nodup)
    (hpres : ∀ p ∈ ps, (lookup fs p).isSome) :
    ∃ fs2, removeFiles fs ps = Except.ok fs2 ∧
      (∀ p ∈ ps, lookup fs2 p = none) ∧
      (∀ q, q ∉ ps → lookup fs2 q = lookup fs q) := by
  induction ps generalizing fs with
  | nil => exact ⟨fs, rfl, by simp, fun q _ => rfl⟩
  | cons p ps ih =>
    have hp : (lookup fs p).isSome := hpres p (by simp)
    rw [List.nodup_cons] at hnd
    have hpres2 : ∀ q ∈ ps, (lookup (removeFile fs p) q).isSome := by
      intro q hq
      have hqp : p ≠ q := fun h => hnd.1 (h ▸ hq)
      rw [lookup_removeFile_ne fs p q hqp]
      exact hpres q (by simp [hq])
    obtain ⟨fs2, h1, h2, h3⟩ := ih (removeFile fs p) hnd.2 hpres2
    refine ⟨fs2, ?_, ?_, ?_⟩
    · simp [removeFiles, hp, h1]
    · intro q hq
      rcases List.mem_cons.mp hq with h | h
      · subst h
        rw [h3 q hnd.1, lookup_removeFile_self]
      · exact h2 q h
    · intro q hq
      have hq1 : q ≠ p := fun h => hq (by simp [h])
      have hq2 : q ∉ ps := fun h => hq (by simp [h])
      rw [h3 q hq2, lookup_removeFile_ne fs p q (fun h => hq1 h.symm)]

/-!
Lemmas about the polling loop of `wait_for_file`.
-/

namespace RegisterParachain

theorem waitLoop_step (env : Nat → FileState) (path : String) (tries delay i r : Nat)
    (hnb : ¬ badTypeState (env i)) (hng : ¬ goodState (env i)) :
    waitLoop env path tries delay i (r + 1) =
      ⟨(waitLoop env path tries delay (i + 1) r).result,
       (waitLoop env path tries delay (i + 1) r).checks + 1,
       (waitLoop env path tries delay (i + 1) r).sleeps + 1⟩ := by
  cases hpres : (env i).present with
  | false => simp [waitLoop, hpres]
  | true =>
    have hf : (env i).is_file = true := by
      cases hfile : (env i).is_file
      · exact absurd ⟨hpres, hfile⟩ hnb
      · rfl
    have hsz : (env i).st_size = 0 := by
      by_contra hne
      exact hng ⟨hpres, hf, Nat.pos_of_ne_zero hne⟩
    simp [waitLoop, hpres, hf, hsz]

theorem waitLoop_step_good (env : Nat → FileState) (path : String) (tries delay i r : Nat)
    (hg : goodState (env i)) :
    waitLoop env path tries delay i (r + 1) = ⟨WaitResult.success, 1, 0⟩ := by
  obtain ⟨h1, h2, h3⟩ := hg
  simp [waitLoop, h1, h2, h3]

theorem waitLoop_step_bad (env : Nat → FileState) (path : String) (tries delay i r : Nat)
    (hb : badTypeState (env i)) :
    waitLoop env path tries delay i (r + 1) =
      ⟨WaitResult.notNormalFile (path ++ " was not a normal file"), 1, 0⟩ := by
  obtain ⟨h1, h2⟩ := hb
  simp [waitLoop, h1, h2]

theorem waitLoop_skip (env : Nat → FileState) (path : String) (tries delay : Nat) :
    ∀ (k i r : Nat), k ≤ r →
      (∀ j, j < k → ¬ badTypeState (env (i + j)) ∧ ¬ goodState (env (i + j))) →
      waitLoop env path tries delay i r =
        ⟨(waitLoop env path tries delay (i + k) (r - k)).result,
         (waitLoop env path tries delay (i + k) (r - k)).checks + k,
         (waitLoop env path tries delay (i + k) (r - k)).sleeps + k⟩ := by
  intro k
  induction k with
  | zero => intro i r _ _; simp
  | succ k ih =>
    intro i r hkr hskip
    match r, hkr with
    | r + 1, hkr =>
      have h0 := hskip 0 (Nat.succ_pos k)
      rw [Nat.add_zero] at h0
      rw [waitLoop_step env path tries delay i r h0.1 h0.2]
      have hskip2 : ∀ j, j < k →
          ¬ badTypeState (env (i + 1 + j)) ∧ ¬ goodState (env (i + 1 + j)) := by
        intro j hj
        have hh := hskip (j + 1) (Nat.succ_lt_succ hj)
        have he : i + (j + 1) = i + 1 + j := by omega
        rwa [he] at hh
      rw [ih (i + 1) r (Nat.le_of_succ_le_succ hkr) hskip2]
      have he2 : i + 1 + k = i + (k + 1) := by omega
      have he3 : r - k = r + 1 - (k + 1) := by omega
      rw [he2, he3]
      simp [Nat.add_assoc]

theorem waitLoop_checks_le (env : Nat → FileState) (path : String) (tries delay : Nat) :
    ∀ (r i : Nat), (waitLoop env path tries delay i r).checks ≤ r := by
  intro r
  induction r with
  | zero => intro i; simp [waitLoop]
  | succ r ih =>
    intro i
    simp only [waitLoop]
    cases hpres : (env i).present with
    | false =>
      simp only [Bool.false_eq_true, if_false]
      exact Nat.succ_le_succ (ih (i + 1))
    | true =>
      simp only [if_true]
      by_cases hf : (env i).is_file = false
      · simp [hf]
      · simp only [hf, if_false]
        by_cases hsz : (env i).st_size > 0
        · simp [hsz]
        · simp only [hsz, if_false]
          exact Nat.succ_le_succ (ih (i + 1))

end RegisterParachain

/-- C4: for every path, tries and delay, when at some performed check within
the first `tries` checks the path exists, is a regular file, and has non-zero
size — i.e. check `k` is the first check satisfying this, and no earlier
performed check found the path existing as a non-regular file (which would
have raised before check `k` was ever performed) — `wait_for_file` returns
success at that check: exactly `k + 1` checks and `k` sleeps are performed,
none after it.  In particular, a check at which the path exists but is empty
is covered by the "first" hypothesis: it does not cause success at that
check. -/
theorem c4_waiter_success_at_first_ready (path : String)
    (env : Nat → RegisterParachain.FileState) (tries delay k : Nat) (hk : k < tries)
    (hgood : RegisterParachain.goodState (env k))
    (hbefore : ∀ j, j < k →
      ¬ RegisterParachain.badTypeState (env j) ∧ ¬ RegisterParachain.goodState (env j)) :
    RegisterParachain.wait_for_file path env tries delay =
      ⟨RegisterParachain.WaitResult.success, k + 1, k⟩ := by
  unfold RegisterParachain.wait_for_file
  rw [RegisterParachain.waitLoop_skip env path tries delay k 0 tries (Nat.le_of_lt hk)
    (by intro j hj; simpa using hbefore j hj)]
  obtain ⟨m, hm⟩ : ∃ m, tries - k = m + 1 := ⟨tries - k - 1, by omega⟩
  rw [Nat.zero_add, hm, RegisterParachain.waitLoop_step_good env path tries delay k m hgood]
  simp [Nat.add_comm]

/-- Witness for C4: a path that is absent at check 0 and becomes a non-empty
regular file at check 1 makes `wait_for_file` succeed at check 1, after
exactly 2 checks and 1 sleep. -/
theorem c4_witness :
    RegisterParachain.wait_for_file "/runtime/runtime.wasm" readyAtOneEnv 10 1 =
      ⟨RegisterParachain.WaitResult.success, 2, 1⟩ :=
  c4_waiter_success_at_first_ready "/runtime/runtime.wasm" readyAtOneEnv 10 1 1
    (by omega)
    (by refine ⟨?_, ?_, ?_⟩ <;> simp [readyAtOneEnv])
    (by
      intro j hj
      have hj0 : j = 0 := by omega
      subst hj0
      constructor
      · intro hb
        simpa [readyAtOneEnv] using hb.1
      · intro hg
        simpa [readyAtOneEnv] using hg.1)

/-- C5: for a path that never comes to exist, `wait_for_file` performs
exactly `tries` existence checks, each followed by a `sleep(delay)`, and then
raises the timeout exception whose message reports `delay * tries` seconds;
moreover (second conjunct) no run of the loop ever performs more than `tries`
checks, whatever the environment. -/
theorem c5_waiter_timeout_after_tries (path : String)
    (env : Nat → RegisterParachain.FileState) (tries delay : Nat)
    (h : ∀ i, (env i).present = false) :
    RegisterParachain.wait_for_file path env tries delay =
      ⟨RegisterParachain.WaitResult.timeout
        (path ++ " was not ready after " ++ toString (delay * tries) ++ " seconds"),
       tries, tries⟩
    ∧ ∀ (env2 : Nat → RegisterParachain.FileState) (t d : Nat),
        (RegisterParachain.wait_for_file path env2 t d).checks ≤ t := by
  constructor
  · unfold RegisterParachain.wait_for_file
    rw [RegisterParachain.waitLoop_skip env path tries delay tries 0 tries Nat.le.refl ?_]
    · simp [RegisterParachain.waitLoop]
    · intro j _
      constructor
      · intro hb
        have hb1 := hb.1
        rw [h (0 + j)] at hb1
        simp at hb1
      · intro hg
        have hg1 := hg.1
        rw [h (0 + j)] at hg1
        simp at hg1
  · intro env2 t d
    exact RegisterParachain.waitLoop_checks_le env2 path t d t 0

/-- Witness for C5: with `tries = 3`, `delay = 2` and a never-created path,
the waiter checks 3 times, sleeps 3 times, and raises the timeout exception
reporting 6 seconds. -/
theorem c5_witness :
    RegisterParachain.wait_for_file "/genesis/genesis-state" neverEnv 3 2 =
      ⟨RegisterParachain.WaitResult.timeout
        "/genesis/genesis-state was not ready after 6 seconds", 3, 3⟩ :=
  (c5_waiter_timeout_after_tries "/genesis/genesis-state" neverEnv 3 2 (fun _ => rfl)).1

/-- C6: at the first performed check at which the path exists but is not a
regular file (check `k`, with every earlier performed check neither
succeeding nor hitting this error), `wait_for_file` raises the "was not a
normal file" exception immediately — `k + 1` checks and `k` sleeps in total,
no further checks or sleeps — for every number `tries > k` of remaining
attempts. -/
theorem c6_waiter_not_normal_file_immediate (path : String)
    (env : Nat → RegisterParachain.FileState) (tries delay k : Nat) (hk : k < tries)
    (hbad : RegisterParachain.badTypeState (env k))
    (hbefore : ∀ j, j < k →
      ¬ RegisterParachain.badTypeState (env j) ∧ ¬ RegisterParachain.goodState (env j)) :
    RegisterParachain.wait_for_file path env tries delay =
      ⟨RegisterParachain.WaitResult.notNormalFile (path ++ " was not a normal file"),
       k + 1, k⟩ := by
  unfold RegisterParachain.wait_for_file
  rw [RegisterParachain.waitLoop_skip env path tries delay k 0 tries (Nat.le_of_lt hk)
    (by intro j hj; simpa using hbefore j hj)]
  obtain ⟨m, hm⟩ : ∃ m, tries - k = m + 1 := ⟨tries - k - 1, by omega⟩
  rw [Nat.zero_add, hm, RegisterParachain.waitLoop_step_bad env path tries delay k m hbad]
  simp [Nat.add_comm]

/-- Witness for C6: a path that is a directory at the very first check makes
`wait_for_file` raise immediately after 1 check and 0 sleeps, although 10
attempts were budgeted. -/
theorem c6_witness :
    RegisterParachain.wait_for_file "/genesis" dirEnv 10 1 =
      ⟨RegisterParachain.WaitResult.notNormalFile "/genesis was not a normal file", 1, 0⟩ :=
  c6_waiter_not_normal_file_immediate "/genesis" dirEnv 10 1 0
    (by omega)
    (by exact ⟨rfl, rfl⟩)
    (by intro j hj; exact absurd hj (Nat.not_lt_zero j))

/-!
Path-distinctness and generator-effect lemmas shared by the migrator claims.
Every path of one migration step has the form `pre ++ suffix` for the common
prefix `pre = res_dir ++ "/" ++ chain_id`, with the six suffixes `".json"`,
`"-fresh.json"`, `"-fresh-raw.json"`, `"-fresh-raw-unsorted.json"`,
`"-fresh.state"`, `"-fresh.wasm"` pairwise distinct.
-/

theorem append_left_injective (pre : String) :
    Function.Injective (fun s => pre ++ s) :=
  fun s t h => strSplitInj pre s t h

theorem artifactPaths_nodup (base : String) : (artifactPaths base).Nodup := by
  have hmap : artifactPaths base =
      List.map (fun s => base ++ s)
        [".json", "-raw.json", "-raw-unsorted.json", ".state", ".wasm"] := rfl
  rw [hmap]
  exact List.Nodup.map (append_left_injective base) (by decide)

theorem orig_not_mem_artifacts (pre : String) :
    (pre ++ ".json") ∉ artifactPaths (pre ++ "-fresh") := by
  intro hmem
  simp only [artifactPaths, List.mem_cons, List.not_mem_nil, or_false] at hmem
  rcases hmem with h | h | h | h | h <;>
    (rw [strAssoc] at h; exact absurd (strSplitInj _ _ _ h) (by decide))

theorem dumpArtifacts_lookup_mem (base : String) (g : GenOutput) (fs : FS) :
    lookup (dumpArtifacts base g fs) (base ++ ".json") = some g.freshSpec ∧
    lookup (dumpArtifacts base g fs) (base ++ "-raw.json") = some g.freshRawSpec ∧
    lookup (dumpArtifacts base g fs) (base ++ "-raw-unsorted.json") = some g.freshRawUnsorted ∧
    lookup (dumpArtifacts base g fs) (base ++ ".state") = some g.freshState ∧
    lookup (dumpArtifacts base g fs) (base ++ ".wasm") = some g.freshWasm := by
  unfold dumpArtifacts
  refine ⟨?_, ?_, ?_, ?_, ?_⟩
  · rw [lookup_setFile_ne _ _ _ _ (strSplitNe base _ _ (by decide)),
        lookup_setFile_ne _ _ _ _ (strSplitNe base _ _ (by decide)),
        lookup_setFile_ne _ _ _ _ (strSplitNe base _ _ (by decide)),
        lookup_setFile_ne _ _ _ _ (strSplitNe base _ _ (by decide)),
        lookup_setFile_self]
  · rw [lookup_setFile_ne _ _ _ _ (strSplitNe base _ _ (by decide)),
        lookup_setFile_ne _ _ _ _ (strSplitNe base _ _ (by decide)),
        lookup_setFile_ne _ _ _ _ (strSplitNe base _ _ (by decide)),
        lookup_setFile_self]
  · rw [lookup_setFile_ne _ _ _ _ (strSplitNe base _ _ (by decide)),
        lookup_setFile_ne _ _ _ _ (strSplitNe base _ _ (by decide)),
        lookup_setFile_self]
  · rw [lookup_setFile_ne _ _ _ _ (strSplitNe base _ _ (by decide)),
        lookup_setFile_self]
  · rw [lookup_setFile_self]

theorem dumpArtifacts_lookup_not_mem (base : String) (g : GenOutput) (fs : FS)
    (q : String) (hq : q ∉ artifactPaths base) :
    lookup (dumpArtifacts base g fs) q = lookup fs q := by
  simp only [artifactPaths, List.mem_cons, List.not_mem_nil, or_false, not_or] at hq
  obtain ⟨h1, h2, h3, h4, h5⟩ := hq
  unfold dumpArtifacts
  rw [lookup_setFile_ne _ _ _ _ (fun h => h5 h.symm),
      lookup_setFile_ne _ _ _ _ (fun h => h4 h.symm),
      lookup_setFile_ne _ _ _ _ (fun h => h3 h.symm),
      lookup_setFile_ne _ _ _ _ (fun h => h2 h.symm),
      lookup_setFile_ne _ _ _ _ (fun h => h1 h.symm)]

theorem dumpArtifacts_all_present (base : String) (g : GenOutput) (fs : FS) :
    ∀ p ∈ artifactPaths base, (lookup (dumpArtifacts base g fs) p).isSome := by
  intro p hp
  obtain ⟨l1, l2, l3, l4, l5⟩ := dumpArtifacts_lookup_mem base g fs
  simp only [artifactPaths, List.mem_cons, List.not_mem_nil, or_false] at hp
  rcases hp with h | h | h | h | h <;> subst h <;>
    simp [l1, l2, l3, l4, l5]

/-- C2: on the worked example — previous spec with bootNodes `["a","b"]` and
genesis `{"x":1}`, fresh raw spec with empty bootNodes and genesis `{"x":2}`
— the merge step with genesis preservation enabled (flag `migrate_genesis =
true` in update_hardcoded_chain_specs.py, flag `regenesis = false` in
update_hardcoded_specs.py) produces exactly the previous bootNodes with
the previous genesis, and with preservation disabled exactly the previous
bootNodes with the fresh genesis. -/
theorem c2_merge_worked_example :
    UpdateHardcodedChainSpecs.mergeStep true prevDoc freshDoc = some mergedKeepGenesis ∧
    UpdateHardcodedChainSpecs.mergeStep false prevDoc freshDoc = some mergedNewGenesis ∧
    UpdateHardcodedSpecs.mergeStep false prevDoc freshDoc = some mergedKeepGenesis ∧
    UpdateHardcodedSpecs.mergeStep true prevDoc freshDoc = some mergedNewGenesis :=
  ⟨rfl, rfl, rfl, rfl⟩

/-- C3 (amended): the boolean-flag condition guarding the copy of the
previous genesis is inverted between the two migrator scripts — but with the
per-file assignment the reverse of the one claimed.  For any previous object
with bootNodes `bn` and genesis `g1` and any fresh object with genesis
`g2 ≠ g1`: update_hardcoded_chain_specs.py (line 71, `if migrate_genesis:`)
yields the previous genesis exactly when its flag is true,
update_hardcoded_specs.py (line 62, `if not regenesis:`) exactly when its
flag is false; with the same flag value the two merges agree on bootNodes
and differ on genesis. -/
theorem c3_genesis_flag_inverted_between_scripts (b : Bool)
    (o f : List (String × Json)) (bn g1 g2 : Json)
    (hbn : getKey o "bootNodes" = some bn)
    (hg1 : getKey o "genesis" = some g1)
    (hg2 : getKey f "genesis" = some g2)
    (hne : g1 ≠ g2) :
    (∃ m1, UpdateHardcodedChainSpecs.mergeStep b (Json.obj o) (Json.obj f) = some m1 ∧
      Json.get m1 "bootNodes" = some bn ∧
      Json.get m1 "genesis" = some (if b then g1 else g2)) ∧
    (∃ m2, UpdateHardcodedSpecs.mergeStep b (Json.obj o) (Json.obj f) = some m2 ∧
      Json.get m2 "bootNodes" = some bn ∧
      Json.get m2 "genesis" = some (if b then g2 else g1)) ∧
    (∀ m1 m2, UpdateHardcodedChainSpecs.mergeStep b (Json.obj o) (Json.obj f) = some m1 →
      UpdateHardcodedSpecs.mergeStep b (Json.obj o) (Json.obj f) = some m2 →
      Json.get m1 "bootNodes" = Json.get m2 "bootNodes" ∧
      Json.get m1 "genesis" ≠ Json.get m2 "genesis") := by
  have hget1 : Json.get (Json.obj (setKey (setKey f "bootNodes" bn) "genesis" g1))
      "bootNodes" = some bn := by
    simp only [Json.get]
    rw [getKey_setKey_ne _ _ _ _ (by decide), getKey_setKey_self]
  have hget1g : Json.get (Json.obj (setKey (setKey f "bootNodes" bn) "genesis" g1))
      "genesis" = some g1 := by
    simp only [Json.get]
    rw [getKey_setKey_self]
  have hget2 : Json.get (Json.obj (setKey f "bootNodes" bn)) "bootNodes" = some bn := by
    simp only [Json.get]
    rw [getKey_setKey_self]
  have hget2g : Json.get (Json.obj (setKey f "bootNodes" bn)) "genesis" = some g2 := by
    simp only [Json.get]
    rw [getKey_setKey_ne _ _ _ _ (by decide), hg2]
  cases b with
  | true =>
    have hspecs : UpdateHardcodedChainSpecs.mergeStep true (Json.obj o) (Json.obj f) =
        some (Json.obj (setKey (setKey f "bootNodes" bn) "genesis" g1)) := by
      simp [UpdateHardcodedChainSpecs.mergeStep, hbn, hg1]
    have hchain : UpdateHardcodedSpecs.mergeStep true (Json.obj o) (Json.obj f) =
        some (Json.obj (setKey f "bootNodes" bn)) := by
      simp [UpdateHardcodedSpecs.mergeStep, hbn]
    refine ⟨⟨_, hspecs, hget1, by simpa using hget1g⟩,
            ⟨_, hchain, hget2, by simpa using hget2g⟩, ?_⟩
    intro m1 m2 hm1 hm2
    rw [hspecs] at hm1
    rw [hchain] at hm2
    obtain rfl := Option.some.inj hm1
    obtain rfl := Option.some.inj hm2
    refine ⟨hget1.trans hget2.symm, ?_⟩
    rw [hget1g, hget2g]
    exact fun h => hne (Option.some.inj h)
  | false =>
    have hspecs : UpdateHardcodedChainSpecs.mergeStep false (Json.obj o) (Json.obj f) =
        some (Json.obj (setKey f "bootNodes" bn)) := by
      simp [UpdateHardcodedChainSpecs.mergeStep, hbn]
    have hchain : UpdateHardcodedSpecs.mergeStep false (Json.obj o) (Json.obj f) =
        some (Json.obj (setKey (setKey f "bootNodes" bn) "genesis" g1)) := by
      simp [UpdateHardcodedSpecs.mergeStep, hbn, hg1]
    refine ⟨⟨_, hspecs, hget2, by simpa using hget2g⟩,
            ⟨_, hchain, hget1, by simpa using hget1g⟩, ?_⟩
    intro m1 m2 hm1 hm2
    rw [hspecs] at hm1
    rw [hchain] at hm2
    obtain rfl := Option.some.inj hm1
    obtain rfl := Option.some.inj hm2
    refine ⟨hget2.trans hget1.symm, ?_⟩
    rw [hget2g, hget1g]
    exact fun h => hne (Option.some.inj h).symm

/-- Witness for C3: the inversion at the concrete worked example with both
flags set to true. -/
theorem c3_witness :
    (∃ m1, UpdateHardcodedChainSpecs.mergeStep true (Json.obj prevList) (Json.obj freshList) = some m1 ∧
      Json.get m1 "bootNodes" = some (Json.arr [Json.str "a", Json.str "b"]) ∧
      Json.get m1 "genesis" = some (if true then Json.obj [("x", Json.num 1)] else Json.obj [("x", Json.num 2)])) ∧
    (∃ m2, UpdateHardcodedSpecs.mergeStep true (Json.obj prevList) (Json.obj freshList) = some m2 ∧
      Json.get m2 "bootNodes" = some (Json.arr [Json.str "a", Json.str "b"]) ∧
      Json.get m2 "genesis" = some (if true then Json.obj [("x", Json.num 2)] else Json.obj [("x", Json.num 1)])) ∧
    (∀ m1 m2, UpdateHardcodedChainSpecs.mergeStep true (Json.obj prevList) (Json.obj freshList) = some m1 →
      UpdateHardcodedSpecs.mergeStep true (Json.obj prevList) (Json.obj freshList) = some m2 →
      Json.get m1 "bootNodes" = Json.get m2 "bootNodes" ∧
      Json.get m1 "genesis" ≠ Json.get m2 "genesis") :=
  c3_genesis_flag_inverted_between_scripts true prevList freshList
    (Json.arr [Json.str "a", Json.str "b"])
    (Json.obj [("x", Json.num 1)]) (Json.obj [("x", Json.num 2)])
    rfl rfl rfl (by simp)

/-- C3 counterexample: on the worked example (previous genesis `{"x":1}`,
fresh genesis `{"x":2}`), update_hardcoded_specs.py's merge with its flag
TRUE keeps the FRESH genesis, and update_hardcoded_chain_specs.py's merge
with its flag FALSE keeps the FRESH genesis — refuting the claim that
update_hardcoded_specs.py copies the previous genesis iff its flag is true
and update_hardcoded_chain_specs.py iff its flag is false: the claimed
per-file polarity assignment is the reverse of the code's. -/
theorem c3_counterexample_per_file_polarity_reversed :
    (UpdateHardcodedSpecs.mergeStep true prevDoc freshDoc).bind
        (fun m => Json.get m "genesis") = some (Json.obj [("x", Json.num 2)]) ∧
    (UpdateHardcodedChainSpecs.mergeStep false prevDoc freshDoc).bind
        (fun m => Json.get m "genesis") = some (Json.obj [("x", Json.num 2)]) ∧
    Json.get prevDoc "genesis" = some (Json.obj [("x", Json.num 1)]) ∧
    Json.obj [("x", Json.num 2)] ≠ Json.obj [("x", Json.num 1)] := by
  refine ⟨rfl, rfl, rfl, ?_⟩
  simp

/-- C1 (code-bug evidence): in update_hardcoded_chain_specs.py, with migration of
genesis DISABLED (`migrate_genesis = false`) the merged document carries the
FRESH genesis `{"x":2}`, and with it ENABLED it carries the previous genesis
`{"x":1}` — the opposite polarity of the claimed invariant, of the script's
own docstring and `--help` text ("Create entirely new chain spec, not
preserving previous genesis state"), and of the sister script
update_hardcoded_specs.py (third conjunct), which does carry the
previous genesis exactly when its flag is disabled. -/
theorem c1_chain_specs_genesis_polarity_bug :
    (UpdateHardcodedChainSpecs.mergeStep false prevDoc freshDoc).bind
        (fun m => Json.get m "genesis") = some (Json.obj [("x", Json.num 2)]) ∧
    (UpdateHardcodedChainSpecs.mergeStep true prevDoc freshDoc).bind
        (fun m => Json.get m "genesis") = some (Json.obj [("x", Json.num 1)]) ∧
    (UpdateHardcodedSpecs.mergeStep false prevDoc freshDoc).bind
        (fun m => Json.get m "genesis") = some (Json.obj [("x", Json.num 1)]) ∧
    (UpdateHardcodedSpecs.mergeStep true prevDoc freshDoc).bind
        (fun m => Json.get m "genesis") = some (Json.obj [("x", Json.num 2)]) ∧
    Json.obj [("x", Json.num 1)] ≠ Json.obj [("x", Json.num 2)] := by
  refine ⟨rfl, rfl, rfl, rfl, ?_⟩
  simp

theorem UHCS_orig_ne_raw (c : String) :
    UpdateHardcodedChainSpecs.origFile c ≠ UpdateHardcodedChainSpecs.newFileBase c ++ "-raw.json" := by
  unfold UpdateHardcodedChainSpecs.origFile UpdateHardcodedChainSpecs.newFileBase
  rw [strAssoc (UpdateHardcodedChainSpecs.RES_DIR ++ "/" ++ c) "-fresh" "-raw.json"]
  exact strSplitNe _ _ _ (by decide)

theorem UHS_orig_ne_raw (c : String) :
    UpdateHardcodedSpecs.origFile c ≠
      UpdateHardcodedSpecs.newFileBase c ++ "-raw.json" := by
  unfold UpdateHardcodedSpecs.origFile UpdateHardcodedSpecs.newFileBase
  rw [strAssoc (UpdateHardcodedSpecs.RES_DIR ++ "/" ++ c) "-fresh" "-raw.json"]
  exact strSplitNe _ _ _ (by decide)

theorem UHCS_orig_not_side (c : String) :
    UpdateHardcodedChainSpecs.origFile c ∉ UpdateHardcodedChainSpecs.sideProducts c :=
  orig_not_mem_artifacts (UpdateHardcodedChainSpecs.RES_DIR ++ "/" ++ c)

theorem UHS_orig_not_side (c : String) :
    UpdateHardcodedSpecs.origFile c ∉ UpdateHardcodedSpecs.sideProducts c :=
  orig_not_mem_artifacts (UpdateHardcodedSpecs.RES_DIR ++ "/" ++ c)

theorem UHCS_mergeFiles_ok_inv (b : Bool) (c : String) (fs1 fs2 : FS)
    (h : UpdateHardcodedChainSpecs.mergeFiles b c fs1 = Except.ok fs2) :
    ∃ m, fs2 = setFile fs1 (UpdateHardcodedChainSpecs.origFile c) (Content.json m) := by
  unfold UpdateHardcodedChainSpecs.mergeFiles at h
  split at h
  · exact Except.noConfusion h
  · split at h
    · exact Except.noConfusion h
    · split at h
      · exact Except.noConfusion h
      · split at h
        · exact Except.noConfusion h
        · split at h
          · exact Except.noConfusion h
          · exact ⟨_, (Except.ok.inj h).symm⟩

theorem UHS_mergeFiles_ok_inv (b : Bool) (c : String) (fs1 fs2 : FS)
    (h : UpdateHardcodedSpecs.mergeFiles b c fs1 = Except.ok fs2) :
    ∃ m, fs2 = setFile fs1 (UpdateHardcodedSpecs.origFile c) (Content.json m) := by
  unfold UpdateHardcodedSpecs.mergeFiles at h
  split at h
  · exact Except.noConfusion h
  · split at h
    · exact Except.noConfusion h
    · split at h
      · exact Except.noConfusion h
      · split at h
        · exact Except.noConfusion h
        · split at h
          · exact Except.noConfusion h
          · exact ⟨_, (Except.ok.inj h).symm⟩

/-- C10: the merged document equals the fresh raw document on every
top-level key other than bootNodes and — when the genesis-copy branch is
taken (flag true in update_hardcoded_chain_specs.py, flag false in
update_hardcoded_specs.py) — genesis; no other key of the previous
document is carried over (the value at every other key is the fresh
document's, including absence).  Moreover (last two conjuncts) in either
script the merge phase never writes the fresh raw spec file: its content is
unchanged from after generation until its deletion. -/
theorem c10_merge_frame :
    (∀ (b : Bool) (o f : List (String × Json)) (k : String) (m : Json),
      UpdateHardcodedChainSpecs.mergeStep b (Json.obj o) (Json.obj f) = some m →
      k ≠ "bootNodes" → (b = true → k ≠ "genesis") →
      Json.get m k = getKey f k) ∧
    (∀ (b : Bool) (o f : List (String × Json)) (k : String) (m : Json),
      UpdateHardcodedSpecs.mergeStep b (Json.obj o) (Json.obj f) = some m →
      k ≠ "bootNodes" → (b = false → k ≠ "genesis") →
      Json.get m k = getKey f k) ∧
    (∀ (b : Bool) (c : String) (fs1 fs2 : FS),
      UpdateHardcodedChainSpecs.mergeFiles b c fs1 = Except.ok fs2 →
      lookup fs2 (UpdateHardcodedChainSpecs.newFileBase c ++ "-raw.json") =
        lookup fs1 (UpdateHardcodedChainSpecs.newFileBase c ++ "-raw.json")) ∧
    (∀ (b : Bool) (c : String) (fs1 fs2 : FS),
      UpdateHardcodedSpecs.mergeFiles b c fs1 = Except.ok fs2 →
      lookup fs2 (UpdateHardcodedSpecs.newFileBase c ++ "-raw.json") =
        lookup fs1 (UpdateHardcodedSpecs.newFileBase c ++ "-raw.json")) := by
  refine ⟨?_, ?_, ?_, ?_⟩
  · intro b o f k m hm hk1 hk2
    cases hbn : getKey o "bootNodes" with
    | none =>
      have h0 : UpdateHardcodedChainSpecs.mergeStep b (Json.obj o) (Json.obj f) = none := by
        simp [UpdateHardcodedChainSpecs.mergeStep, hbn]
      rw [h0] at hm
      exact Option.noConfusion hm
    | some bn =>
      cases b with
      | false =>
        have h0 : UpdateHardcodedChainSpecs.mergeStep false (Json.obj o) (Json.obj f) =
            some (Json.obj (setKey f "bootNodes" bn)) := by
          simp [UpdateHardcodedChainSpecs.mergeStep, hbn]
        rw [h0] at hm
        obtain rfl := Option.some.inj hm
        simp only [Json.get]
        rw [getKey_setKey_ne f "bootNodes" k bn hk1]
      | true =>
        cases hg : getKey o "genesis" with
        | none =>
          have h0 : UpdateHardcodedChainSpecs.mergeStep true (Json.obj o) (Json.obj f) = none := by
            simp [UpdateHardcodedChainSpecs.mergeStep, hbn, hg]
          rw [h0] at hm
          exact Option.noConfusion hm
        | some g =>
          have h0 : UpdateHardcodedChainSpecs.mergeStep true (Json.obj o) (Json.obj f) =
              some (Json.obj (setKey (setKey f "bootNodes" bn) "genesis" g)) := by
            simp [UpdateHardcodedChainSpecs.mergeStep, hbn, hg]
          rw [h0] at hm
          obtain rfl := Option.some.inj hm
          simp only [Json.get]
          rw [getKey_setKey_ne _ "genesis" k g (hk2 rfl),
              getKey_setKey_ne f "bootNodes" k bn hk1]
  · intro b o f k m hm hk1 hk2
    cases hbn : getKey o "bootNodes" with
    | none =>
      have h0 : UpdateHardcodedSpecs.mergeStep b (Json.obj o) (Json.obj f) = none := by
        simp [UpdateHardcodedSpecs.mergeStep, hbn]
      rw [h0] at hm
      exact Option.noConfusion hm
    | some bn =>
      cases b with
      | true =>
        have h0 : UpdateHardcodedSpecs.mergeStep true (Json.obj o) (Json.obj f) =
            some (Json.obj (setKey f "bootNodes" bn)) := by
          simp [UpdateHardcodedSpecs.mergeStep, hbn]
        rw [h0] at hm
        obtain rfl := Option.some.inj hm
        simp only [Json.get]
        rw [getKey_setKey_ne f "bootNodes" k bn hk1]
      | false =>
        cases hg : getKey o "genesis" with
        | none =>
          have h0 : UpdateHardcodedSpecs.mergeStep false (Json.obj o) (Json.obj f) =
              none := by
            simp [UpdateHardcodedSpecs.mergeStep, hbn, hg]
          rw [h0] at hm
          exact Option.noConfusion hm
        | some g =>
          have h0 : UpdateHardcodedSpecs.mergeStep false (Json.obj o) (Json.obj f) =
              some (Json.obj (setKey (setKey f "bootNodes" bn) "genesis" g)) := by
            simp [UpdateHardcodedSpecs.mergeStep, hbn, hg]
          rw [h0] at hm
          obtain rfl := Option.some.inj hm
          simp only [Json.get]
          rw [getKey_setKey_ne _ "genesis" k g (hk2 rfl),
              getKey_setKey_ne f "bootNodes" k bn hk1]
  · intro b c fs1 fs2 hm
    obtain ⟨m, rfl⟩ := UHCS_mergeFiles_ok_inv b c fs1 fs2 hm
    exact lookup_setFile_ne _ _ _ _ (UHCS_orig_ne_raw c)
  · intro b c fs1 fs2 hm
    obtain ⟨m, rfl⟩ := UHS_mergeFiles_ok_inv b c fs1 fs2 hm
    exact lookup_setFile_ne _ _ _ _ (UHS_orig_ne_raw c)

/-- Witness for C10: on the worked example with the genesis branch not taken
in update_hardcoded_chain_specs.py, the merged document agrees with the fresh
document on the key "name" (both lack it) and on the key "genesis". -/
theorem c10_witness :
    Json.get mergedNewGenesis "name" = getKey freshList "name" ∧
    Json.get mergedNewGenesis "genesis" = getKey freshList "genesis" :=
  ⟨c10_merge_frame.1 false prevList freshList "name" mergedNewGenesis rfl
      (by decide) (fun h => absurd h (by decide)),
   c10_merge_frame.1 false prevList freshList "genesis" mergedNewGenesis rfl
      (by decide) (fun h => absurd h (by decide))⟩

/-- C7: in update_hardcoded_specs.py, when no previous spec file
exists at the original path for a chain identifier, the step completes
without error, the original path afterwards holds the freshly generated raw
spec with identical content (the `cp` of the fresh raw file), and no field
merging is performed: the fresh raw file itself is unchanged and the
original file's content is that very content, not a re-serialized merge. -/
theorem c7_missing_previous_takes_fresh_raw_verbatim (regenesis : Bool)
    (gen : String → GenOutput) (c : String) (fs : FS)
    (h : lookup fs (UpdateHardcodedSpecs.origFile c) = none) :
    ∃ fs2, UpdateHardcodedSpecs.processChain regenesis gen c fs = Except.ok fs2 ∧
      lookup fs2 (UpdateHardcodedSpecs.origFile c) = some (gen c).freshRawSpec ∧
      lookup fs2 (UpdateHardcodedSpecs.newFileBase c ++ "-raw.json") =
        some (gen c).freshRawSpec := by
  have horig1 : lookup (UpdateHardcodedSpecs.runGenerator gen c fs)
      (UpdateHardcodedSpecs.origFile c) = none := by
    unfold UpdateHardcodedSpecs.runGenerator
    rw [dumpArtifacts_lookup_not_mem _ _ _ _ (UHS_orig_not_side c)]
    exact h
  have hraw1 : lookup (UpdateHardcodedSpecs.runGenerator gen c fs)
      (UpdateHardcodedSpecs.newFileBase c ++ "-raw.json") =
      some (gen c).freshRawSpec := by
    unfold UpdateHardcodedSpecs.runGenerator
    exact (dumpArtifacts_lookup_mem _ _ _).2.1
  simp only [UpdateHardcodedSpecs.processChain]
  rw [horig1, hraw1]
  refine ⟨_, rfl, ?_, ?_⟩
  · rw [lookup_setFile_self]
  · rw [lookup_setFile_ne _ _ _ _ (UHS_orig_ne_raw c)]
    exact hraw1

/-- Witness for C7: chain `integritee-rococo` on an empty file system. -/
theorem c7_witness :
    ∃ fs2, UpdateHardcodedSpecs.processChain false genW "integritee-rococo" [] =
        Except.ok fs2 ∧
      lookup fs2 (UpdateHardcodedSpecs.origFile "integritee-rococo") =
        some (genW "integritee-rococo").freshRawSpec ∧
      lookup fs2 (UpdateHardcodedSpecs.newFileBase "integritee-rococo" ++ "-raw.json") =
        some (genW "integritee-rococo").freshRawSpec :=
  c7_missing_previous_takes_fresh_raw_verbatim false genW "integritee-rococo" [] rfl

/-- C8 counterexample: a run of update_hardcoded_specs.py on the chain
identifier `integritee-rococo` with no previous spec file completes without
error, yet all five fresh-artifact side files remain on disk afterwards —
refuting the claim that after every completed migration none of the five
side files remain. -/
theorem c8_counterexample_side_files_remain :
    UpdateHardcodedSpecs.processChain false genW "integritee-rococo" [] =
      Except.ok c8FsAfter ∧
    lookup c8FsAfter "polkadot-parachains/chain-specs/integritee-rococo-fresh.json" =
      some (Content.raw "fresh-spec") ∧
    lookup c8FsAfter "polkadot-parachains/chain-specs/integritee-rococo-fresh-raw.json" =
      some (Content.json freshDoc) ∧
    lookup c8FsAfter "polkadot-parachains/chain-specs/integritee-rococo-fresh-raw-unsorted.json" =
      some (Content.raw "unsorted") ∧
    lookup c8FsAfter "polkadot-parachains/chain-specs/integritee-rococo-fresh.state" =
      some (Content.raw "state-dump") ∧
    lookup c8FsAfter "polkadot-parachains/chain-specs/integritee-rococo-fresh.wasm" =
      some (Content.raw "wasm-blob") :=
  ⟨rfl, rfl, rfl, rfl, rfl, rfl⟩

/-- C8 (amended): for every chain identifier processed through the merge
branch — the previous spec file exists after generation, both documents
parse, and the merge succeeds — the step completes, none of the five
fresh-artifact side files remain on disk, and the original spec path holds
exactly the merged document (whole-content replacement, trailing content of
the longer previous file gone); this holds for both scripts.  The amendment
restricts the original claim to the merge branch, excluding
update_hardcoded_specs.py's missing-previous-file branch, where the
completed step leaves all five side files on disk. -/
theorem c8_amended_side_files_removed_in_merge_branch :
    (∀ (b : Bool) (gen : String → GenOutput) (c : String) (fs : FS) (co : Content)
       (oj nj m : Json),
      lookup (UpdateHardcodedChainSpecs.runGenerator gen c fs)
        (UpdateHardcodedChainSpecs.origFile c) = some co →
      parseContent co = Except.ok oj →
      parseContent (gen c).freshRawSpec = Except.ok nj →
      UpdateHardcodedChainSpecs.mergeStep b oj nj = some m →
      ∃ fs2, UpdateHardcodedChainSpecs.processChain b gen c fs = Except.ok fs2 ∧
        (∀ p ∈ UpdateHardcodedChainSpecs.sideProducts c, lookup fs2 p = none) ∧
        lookup fs2 (UpdateHardcodedChainSpecs.origFile c) = some (Content.json m)) ∧
    (∀ (b : Bool) (gen : String → GenOutput) (c : String) (fs : FS) (co : Content)
       (oj nj m : Json),
      lookup (UpdateHardcodedSpecs.runGenerator gen c fs)
        (UpdateHardcodedSpecs.origFile c) = some co →
      parseContent co = Except.ok oj →
      parseContent (gen c).freshRawSpec = Except.ok nj →
      UpdateHardcodedSpecs.mergeStep b oj nj = some m →
      ∃ fs2, UpdateHardcodedSpecs.processChain b gen c fs = Except.ok fs2 ∧
        (∀ p ∈ UpdateHardcodedSpecs.sideProducts c, lookup fs2 p = none) ∧
        lookup fs2 (UpdateHardcodedSpecs.origFile c) = some (Content.json m)) := by
  constructor
  · intro b gen c fs co oj nj m h1 h2 h3 h4
    have hraw1 : lookup (UpdateHardcodedChainSpecs.runGenerator gen c fs)
        (UpdateHardcodedChainSpecs.newFileBase c ++ "-raw.json") =
        some (gen c).freshRawSpec := by
      unfold UpdateHardcodedChainSpecs.runGenerator
      exact (dumpArtifacts_lookup_mem _ _ _).2.1
    have hmf : UpdateHardcodedChainSpecs.mergeFiles b c (UpdateHardcodedChainSpecs.runGenerator gen c fs) =
        Except.ok (setFile (UpdateHardcodedChainSpecs.runGenerator gen c fs)
          (UpdateHardcodedChainSpecs.origFile c) (Content.json m)) := by
      simp [UpdateHardcodedChainSpecs.mergeFiles, h1, h2, hraw1, h3, h4]
    have hpres : ∀ p ∈ UpdateHardcodedChainSpecs.sideProducts c,
        (lookup (setFile (UpdateHardcodedChainSpecs.runGenerator gen c fs)
          (UpdateHardcodedChainSpecs.origFile c) (Content.json m)) p).isSome := by
      intro p hp
      have hne : UpdateHardcodedChainSpecs.origFile c ≠ p :=
        fun he => UHCS_orig_not_side c (he ▸ hp)
      rw [lookup_setFile_ne _ _ _ _ hne]
      exact dumpArtifacts_all_present (UpdateHardcodedChainSpecs.newFileBase c) (gen c) fs p hp
    obtain ⟨fs3, hrf, hnone, hkeep⟩ :=
      removeFiles_ok (UpdateHardcodedChainSpecs.sideProducts c)
        (setFile (UpdateHardcodedChainSpecs.runGenerator gen c fs)
          (UpdateHardcodedChainSpecs.origFile c) (Content.json m))
        (artifactPaths_nodup _) hpres
    refine ⟨fs3, ?_, hnone, ?_⟩
    · simp [UpdateHardcodedChainSpecs.processChain, hmf, hrf]
    · rw [hkeep _ (UHCS_orig_not_side c), lookup_setFile_self]
  · intro b gen c fs co oj nj m h1 h2 h3 h4
    have hraw1 : lookup (UpdateHardcodedSpecs.runGenerator gen c fs)
        (UpdateHardcodedSpecs.newFileBase c ++ "-raw.json") =
        some (gen c).freshRawSpec := by
      unfold UpdateHardcodedSpecs.runGenerator
      exact (dumpArtifacts_lookup_mem _ _ _).2.1
    have hmf : UpdateHardcodedSpecs.mergeFiles b c
        (UpdateHardcodedSpecs.runGenerator gen c fs) =
        Except.ok (setFile (UpdateHardcodedSpecs.runGenerator gen c fs)
          (UpdateHardcodedSpecs.origFile c) (Content.json m)) := by
      simp [UpdateHardcodedSpecs.mergeFiles, h1, h2, hraw1, h3, h4]
    have hpres : ∀ p ∈ UpdateHardcodedSpecs.sideProducts c,
        (lookup (setFile (UpdateHardcodedSpecs.runGenerator gen c fs)
          (UpdateHardcodedSpecs.origFile c) (Content.json m)) p).isSome := by
      intro p hp
      have hne : UpdateHardcodedSpecs.origFile c ≠ p :=
        fun he => UHS_orig_not_side c (he ▸ hp)
      rw [lookup_setFile_ne _ _ _ _ hne]
      exact dumpArtifacts_all_present (UpdateHardcodedSpecs.newFileBase c) (gen c) fs p hp
    obtain ⟨fs3, hrf, hnone, hkeep⟩ :=
      removeFiles_ok (UpdateHardcodedSpecs.sideProducts c)
        (setFile (UpdateHardcodedSpecs.runGenerator gen c fs)
          (UpdateHardcodedSpecs.origFile c) (Content.json m))
        (artifactPaths_nodup _) hpres
    refine ⟨fs3, ?_, hnone, ?_⟩
    · simp [UpdateHardcodedSpecs.processChain, h1, hmf, hrf]
    · rw [hkeep _ (UHS_orig_not_side c), lookup_setFile_self]

/-- Witness for C8 (amended): the merge branch for chain `a` with a previous
spec file, in the encointer script with `migrate_genesis = false`. -/
theorem c8_witness :
    ∃ fs2, UpdateHardcodedChainSpecs.processChain false genW "a" fs0W = Except.ok fs2 ∧
      (∀ p ∈ UpdateHardcodedChainSpecs.sideProducts "a", lookup fs2 p = none) ∧
      lookup fs2 (UpdateHardcodedChainSpecs.origFile "a") =
        some (Content.json mergedNewGenesis) :=
  c8_amended_side_files_removed_in_merge_branch.1 false genW "a" fs0W
    (Content.json prevDoc) prevDoc freshDoc mergedNewGenesis rfl rfl rfl rfl

/-- C9: chain identifiers are processed one at a time in listed order, and
the first raised exception aborts the whole run: when every identifier of
`pre` processes successfully (reaching state `fs1`) and the next identifier
`c` raises exception `e` — whose file-system component is the state at the
raise, so identifiers of `pre` keep their fully migrated spec files and `c`
may be left partially modified — the whole run over `pre ++ c :: post`
fails with exactly `e`, for every `post`: the identifiers after `c` are
never touched and do not influence the result.  Both scripts. -/
theorem c9_first_error_aborts_run :
    (∀ (b : Bool) (gen : String → GenOutput) (pre : List String) (c : String)
       (post : List String) (fs fs1 : FS) (e : String × FS),
      UpdateHardcodedChainSpecs.runMigration b gen pre fs = Except.ok fs1 →
      UpdateHardcodedChainSpecs.processChain b gen c fs1 = Except.error e →
      UpdateHardcodedChainSpecs.runMigration b gen (pre ++ c :: post) fs = Except.error e) ∧
    (∀ (b : Bool) (gen : String → GenOutput) (pre : List String) (c : String)
       (post : List String) (fs fs1 : FS) (e : String × FS),
      UpdateHardcodedSpecs.runMigration b gen pre fs = Except.ok fs1 →
      UpdateHardcodedSpecs.processChain b gen c fs1 = Except.error e →
      UpdateHardcodedSpecs.runMigration b gen (pre ++ c :: post) fs = Except.error e) := by
  constructor
  · intro b gen pre
    induction pre with
    | nil =>
      intro c post fs fs1 e h1 h2
      obtain rfl := Except.ok.inj h1
      simp [UpdateHardcodedChainSpecs.runMigration, h2]
    | cons c0 cs ih =>
      intro c post fs fs1 e h1 h2
      cases hp : UpdateHardcodedChainSpecs.processChain b gen c0 fs with
      | error e0 =>
        rw [show UpdateHardcodedChainSpecs.runMigration b gen (c0 :: cs) fs = Except.error e0 from
          by simp [UpdateHardcodedChainSpecs.runMigration, hp]] at h1
        exact Except.noConfusion h1
      | ok fsm =>
        rw [show UpdateHardcodedChainSpecs.runMigration b gen (c0 :: cs) fs =
            UpdateHardcodedChainSpecs.runMigration b gen cs fsm from
          by simp [UpdateHardcodedChainSpecs.runMigration, hp]] at h1
        have hrec := ih c post fsm fs1 e h1 h2
        rw [List.cons_append]
        simp [UpdateHardcodedChainSpecs.runMigration, hp, hrec]
  · intro b gen pre
    induction pre with
    | nil =>
      intro c post fs fs1 e h1 h2
      obtain rfl := Except.ok.inj h1
      simp [UpdateHardcodedSpecs.runMigration, h2]
    | cons c0 cs ih =>
      intro c post fs fs1 e h1 h2
      cases hp : UpdateHardcodedSpecs.processChain b gen c0 fs with
      | error e0 =>
        rw [show UpdateHardcodedSpecs.runMigration b gen (c0 :: cs) fs = Except.error e0 from
          by simp [UpdateHardcodedSpecs.runMigration, hp]] at h1
        exact Except.noConfusion h1
      | ok fsm =>
        rw [show UpdateHardcodedSpecs.runMigration b gen (c0 :: cs) fs =
            UpdateHardcodedSpecs.runMigration b gen cs fsm from
          by simp [UpdateHardcodedSpecs.runMigration, hp]] at h1
        have hrec := ih c post fsm fs1 e h1 h2
        rw [List.cons_append]
        simp [UpdateHardcodedSpecs.runMigration, hp, hrec]

/-- Witness for C9: chain `a` migrates fully (genesis preserved, side files
removed), chain `b` has no previous spec file in the encointer script, so
the run over `a, b, z` aborts with `b`'s FileNotFoundError — `z` is never
processed, `a`'s migrated file and `b`'s partially written fresh artifacts
are both visible in the file system carried by the exception. -/
theorem c9_witness :
    UpdateHardcodedChainSpecs.runMigration true genW (["a"] ++ "b" :: ["z"]) fs0W =
      Except.error ("FileNotFoundError: polkadot-parachains/res/b.json", c9ErrFs) :=
  c9_first_error_aborts_run.1 true genW ["a"] "b" ["z"] fs0W _ _ rfl rfl
